import Mathlib

/-!
# ContextFlow: hierarchical indexing and retrieval engine — verification

Shallow embedding of the core of the ContextFlow backend
(`backend/app/pdf_processing.py`, `backend/app/vector_store.py`,
`backend/app/conversation_manager.py`) together with proofs about the
specified properties.

Modelling conventions:
* Python `None`-able values become `Option`; Python truthiness of an
  optional string (`if s:`) is `s = some t` with `t ≠ ""`.
* External collaborators (PDF text extraction, the LangExtract
  hierarchy-extraction provider, the embedding provider, the FAISS
  similarity backend) are modelled as explicit inputs: each uploaded file
  carries the outcome of its text/extraction provider calls, and searches
  take a backend oracle `String → Nat → Except String (List hit)`; a
  Python exception raised by a provider is the `Except.error` case.
* Python dicts used as records become structures with the keys the code
  actually reads/writes; `dict.setdefault(k, []).append(v)` on the
  section map becomes `appendToKey` on an association list kept in
  insertion order.
* `uuid.uuid4()` and `datetime.now()` are external nondeterminism; ids
  and dates are carried as input fields where the code consumes them and
  are never inspected by the core logic.
* Python floats (scores, confidences) are pass-through values the core
  never computes with; they are modelled as `Int`.
* Python stable `sorted(key=...)` is modelled by a stable insertion sort
  (`sortByStart`): equal keys keep provider-emission order.
-/

deriving instance DecidableEq for Except

namespace ContextFlow

/-- `models.DocumentMetadata` (pydantic model). `upload_date` abstracted to `Nat`. -/
structure DocumentMetadata where
  id : String
  filename : String
  upload_date : Nat
  file_size : Nat
  page_count : Nat
  chunk_count : Nat
deriving DecidableEq

/-- The keys `process_multiple_pdfs` writes into a chunk's free-form
`metadata` dict (and `vector_store.py` later reads). -/
structure ChunkMetadata where
  filename : Option String
  chunk_size : Option Nat
  total_chunks : Option Nat
  hierarchy_level : Option Nat
  parent_section : Option String
  section_title : Option String
  structure_confidence : Option Int
  source_grounding : Option String
deriving DecidableEq

/-- `models.DocumentChunk` (pydantic model). -/
structure DocumentChunk where
  id : String
  document_id : String
  content : String
  chunk_index : Nat
  page_number : Nat
  metadata : ChunkMetadata
deriving DecidableEq

/-- A LangExtract character interval (half-open, `start_pos`/`end_pos`). -/
structure CharInterval where
  start_pos : Nat
  end_pos : Nat
deriving DecidableEq

/-- A LangExtract extraction: class label, literal matched text, character
interval, and the attribute keys the code reads (`level`, `title`,
`parent`), plus the optional `confidence` attribute read via `getattr`. -/
structure Extraction where
  extraction_class : String
  extraction_text : String
  char_interval : CharInterval
  level : Option Nat
  title : Option String
  parent : Option String
  confidence : Option Int
deriving DecidableEq

/-- Python string slice `text[a:b]` for `0 ≤ a`, `0 ≤ b` (code-point indexing). -/
def pySlice (text : String) (a b : Nat) : String :=
  (((text.toList).drop a).take (b - a)).asString

/-- Python `str.strip()`: drop leading and trailing whitespace. -/
def pyStrip (s : String) : String :=
  (((s.toList.dropWhile Char.isWhitespace).reverse.dropWhile Char.isWhitespace).reverse).asString

/-- Stable insertion of an extraction into a list already sorted by
`char_interval.start_pos`: the inserted element goes before later-emitted
extractions with an equal start offset. -/
def insertByStart (e : Extraction) : List Extraction → List Extraction
  | [] => [e]
  | x :: xs =>
    if x.char_interval.start_pos < e.char_interval.start_pos then
      x :: insertByStart e xs
    else
      e :: x :: xs

/-- `sorted(result.extractions, key=lambda e: e.char_interval.start_pos)` —
Python's sort is stable, and any stable sort on this key computes the same
list, so a stable insertion sort models it. -/
def sortByStart : List Extraction → List Extraction
  | [] => []
  | x :: xs => insertByStart x (sortByStart xs)

/-- The chunk built by the loop body of `process_multiple_pdfs` for the
extraction at position `i` of the sorted extraction list (only called when
`extraction_class == "section"`). `chunkId` stands for the fresh
`uuid.uuid4()`. -/
def buildChunk (text : String) (docId filename chunkId : String)
    (sorted_extractions : List Extraction) (i : Nat) (extraction : Extraction) :
    DocumentChunk :=
  let section_title := extraction.extraction_text
  let start_pos := extraction.char_interval.end_pos
  let end_pos :=
    match sorted_extractions.get? (i + 1) with
    | some nxt => nxt.char_interval.start_pos
    | none => text.length
  let section_content := pyStrip (pySlice text start_pos end_pos)
  let chunk_content := section_title ++ "\n\n" ++ section_content
  { id := chunkId
    document_id := docId
    content := chunk_content
    chunk_index := i
    page_number := 1
    metadata :=
      { filename := some filename
        chunk_size := some chunk_content.length
        total_chunks := some sorted_extractions.length
        hierarchy_level := extraction.level
        parent_section := extraction.parent
        section_title := extraction.title
        structure_confidence := some (extraction.confidence.getD 1)
        source_grounding := some section_title } }

/-- The `for i, extraction in enumerate(sorted_extractions)` loop of
`process_multiple_pdfs`: appends a chunk for each extraction classified
`"section"`. Chunk ids are fresh uuids, never inspected; modelled as `""`. -/
def buildChunks (text : String) (docId filename : String)
    (sorted_extractions : List Extraction) : List DocumentChunk :=
  sorted_extractions.enum.filterMap fun ie =>
    if ie.2.extraction_class = "section" then
      some (buildChunk text docId filename "" sorted_extractions ie.1 ie.2)
    else
      none

/-- One uploaded file, as the core sees it: the filename, the outcome of
`get_pdf_text` (which re-raises PDF read errors), the outcome of
`lx.extract` (the hierarchy-extraction provider), and the external
nondeterminism (`uuid.uuid4()` document id, `datetime.now()` date). -/
structure UploadFile where
  filename : String
  textResult : Except String String
  extractResult : Except String (List Extraction)
  docId : String
  uploadDate : Nat
deriving DecidableEq

/-- The body of the per-file loop of `process_multiple_pdfs`: `none` means
the `continue` paths (text-extraction error caught, blank text, or
extraction-provider error caught); `some` carries the finished
`DocumentMetadata` (with `chunk_count` finalized) and its chunks. -/
def processFile (f : UploadFile) : Option (DocumentMetadata × List DocumentChunk) :=
  match f.textResult with
  | .error _ => none
  | .ok text =>
    if pyStrip text = "" then none
    else
      match f.extractResult with
      | .error _ => none
      | .ok extractions =>
        let sorted_extractions := sortByStart extractions
        let chunks := buildChunks text f.docId f.filename sorted_extractions
        some
          ({ id := f.docId
             filename := f.filename
             upload_date := f.uploadDate
             file_size := text.length
             page_count := 1
             chunk_count := chunks.length }, chunks)

/-- One iteration of `process_multiple_pdfs`' file loop over the
`(all_documents, all_chunks)` accumulator: a skipped file leaves the
accumulator alone, a processed one appends its document record and its
chunks. -/
def processStep (acc : List DocumentMetadata × List DocumentChunk) (f : UploadFile) :
    List DocumentMetadata × List DocumentChunk :=
  match processFile f with
  | none => acc
  | some (d, cs) => (acc.1 ++ [d], acc.2 ++ cs)

/-- `process_multiple_pdfs`: processes each file, skipping (with a log)
any file whose provider calls fail, and accumulates
`(all_documents, all_chunks)`. -/
def process_multiple_pdfs (files : List UploadFile) :
    List DocumentMetadata × List DocumentChunk :=
  files.foldl processStep ([], [])

/-- The metadata record `add_documents` stores in FAISS for one chunk
(the dict literal at `vector_store.py` lines 67–79, defaults applied at
write time). -/
structure FaissMeta where
  chunk_id : String
  filename : String
  document_id : String
  section_title : Option String
  hierarchy_level : Option Nat
  parent_section : Option String
  structure_confidence : Option Int
  source_grounding : Option String
deriving DecidableEq

/-- One record of the FAISS vector store: the text it was embedded from
(`Document.page_content`) plus its metadata. Vectors themselves live in
the external embedding provider and are not observable by the core. -/
structure VSEntry where
  page_content : String
  metadata : FaissMeta
deriving DecidableEq

def chunkToEntry (chunk : DocumentChunk) : VSEntry :=
  { page_content := chunk.content
    metadata :=
      { chunk_id := chunk.id
        filename := chunk.metadata.filename.getD "Unknown"
        document_id := chunk.document_id
        section_title := chunk.metadata.section_title
        hierarchy_level := chunk.metadata.hierarchy_level
        parent_section := chunk.metadata.parent_section
        structure_confidence := chunk.metadata.structure_confidence
        source_grounding := chunk.metadata.source_grounding } }

/-- The similarity backend behind `similarity_search_with_score`: external
(embedding-dependent), so modelled as an oracle; `Except.error` is a raised
exception. Scores are opaque pass-through floats, modelled as `Int`. -/
def SearchOracle : Type := String → Nat → Except String (List (VSEntry × Int))

/-- Outcome of the external world for one `add_documents` call:
`embedAvailable` is whether `_initialize_embeddings` succeeds (API key
configured and the embeddings client constructs), `faissOk` is whether
`FAISS.from_texts`/`merge_from` complete without raising. -/
structure Env where
  embedAvailable : Bool
  faissOk : Bool
deriving DecidableEq

/-- The `SimpleVectorStore` state. The Python dict `section_to_chunks` is
an association list in key-insertion order; the set `section_titles` is a
duplicate-free list. -/
structure SimpleVectorStore where
  documents : List DocumentMetadata
  chunks : List DocumentChunk
  embeddings : Option Unit
  vector_store : Option (List VSEntry)
  section_titles : List String
  section_to_chunks : List (String × List Nat)
deriving DecidableEq

/-- `SimpleVectorStore.__init__`. -/
def SimpleVectorStore.init : SimpleVectorStore :=
  { documents := []
    chunks := []
    embeddings := none
    vector_store := none
    section_titles := []
    section_to_chunks := [] }

/-- `SimpleVectorStore.reset_embeddings`. -/
def SimpleVectorStore.reset_embeddings (st : SimpleVectorStore) : SimpleVectorStore :=
  { st with
    embeddings := none
    vector_store := none
    section_titles := []
    section_to_chunks := [] }

/-- Python truthiness of `chunk.metadata.get("section_title")`:
present and a non-empty string. -/
def truthyTitle (t : Option String) : Option String :=
  match t with
  | some s => if s = "" then none else some s
  | none => none

/-- Set-insert into the `section_titles` list. -/
def addTitle (t : String) (ts : List String) : List String :=
  if t ∈ ts then ts else ts ++ [t]

/-- `self.section_to_chunks.setdefault(title, []).append(v)` on an
association list kept in insertion order. -/
def appendToKey (m : List (String × List Nat)) (k : String) (v : Nat) :
    List (String × List Nat) :=
  if m.any (fun p => p.1 = k) then
    m.map (fun p => if p.1 = k then (p.1, p.2 ++ [v]) else p)
  else
    m ++ [(k, [v])]

/-- `self.section_to_chunks.get(title, [])`. -/
def getKey (m : List (String × List Nat)) (k : String) : List Nat :=
  match m.find? (fun p => p.1 = k) with
  | some p => p.2
  | none => []

/-- The `for idx, chunk in enumerate(chunks)` loop of `add_documents`,
building the section index: position recorded for index `idx` is
`len(self.chunks) - len(chunks) + idx = base + idx` (the chunks list has
already been extended). -/
def recordLoop (base : Nat) :
    Nat → List DocumentChunk → List String × List (String × List Nat) →
    List String × List (String × List Nat)
  | _, [], acc => acc
  | idx, chunk :: rest, (sts, m) =>
    match truthyTitle chunk.metadata.section_title with
    | some t => recordLoop base (idx + 1) rest (addTitle t sts, appendToKey m t (base + idx))
    | none => recordLoop base (idx + 1) rest (sts, m)

/-- `_initialize_embeddings`: returns truthy `bool(self.embeddings)` after
possibly constructing the embeddings client; construction succeeds exactly
when the provider is configured and reachable (`env.embedAvailable`). -/
def initEmbeddings (env : Env) (st : SimpleVectorStore) : Bool × SimpleVectorStore :=
  match st.embeddings with
  | some _ => (true, st)
  | none =>
    if env.embedAvailable then (true, { st with embeddings := some () })
    else (false, st)

/-- `SimpleVectorStore.add_documents`: extends `documents` and `chunks`,
updates the section index, then (if embeddings initialize and the batch is
non-empty) creates or merges the FAISS store; a raised FAISS/embedding
exception is caught, leaving the vector store as it was. -/
def SimpleVectorStore.add_documents (st : SimpleVectorStore) (env : Env)
    (documents : List DocumentMetadata) (chunks : List DocumentChunk) :
    SimpleVectorStore :=
  let st1 := { st with documents := st.documents ++ documents, chunks := st.chunks ++ chunks }
  let recorded := recordLoop (st1.chunks.length - chunks.length) 0 chunks
      (st1.section_titles, st1.section_to_chunks)
  let st2 := { st1 with section_titles := recorded.1, section_to_chunks := recorded.2 }
  let initRes := initEmbeddings env st2
  if !initRes.1 then initRes.2
  else
    let st3 := initRes.2
    if chunks.isEmpty then st3
    else if env.faissOk then
      let newEntries := chunks.map chunkToEntry
      match st3.vector_store with
      | none => { st3 with vector_store := some newEntries }
      | some existing => { st3 with vector_store := some (existing ++ newEntries) }
    else st3

/-- One element of `search_sections`' result list. -/
structure SectionResult where
  section_title : String
  score : Int
deriving DecidableEq

/-- The chunk-result dict shape shared by `search` and
`search_chunks_in_section`. -/
structure ChunkResult where
  content : String
  score : Int
  filename : String
  chunk_id : String
  section_title : Option String
  hierarchy_level : Option Nat
  parent_section : Option String
  structure_confidence : Option Int
  source_grounding : Option String
deriving DecidableEq

/-- The result-scanning loop of `search_sections`: keep the first
occurrence of each distinct truthy section title; after each iteration
break when `k` titles have been collected. -/
def sectionLoop (k : Nat) :
    List (VSEntry × Int) → List String → List SectionResult → List SectionResult
  | [], _, acc => acc
  | hit :: rest, seen, acc =>
    let step :=
      match truthyTitle hit.1.metadata.section_title with
      | some t =>
        if t ∈ seen then (acc, seen)
        else (acc ++ [SectionResult.mk t hit.2], t :: seen)
      | none => (acc, seen)
    if k ≤ step.1.length then step.1
    else sectionLoop k rest step.2 step.1

/-- `SimpleVectorStore.search_sections`: uninitialized store returns `[]`;
a raised backend exception is caught and returns `[]`; otherwise scan the
broad (`k=20`) similarity result. -/
def SimpleVectorStore.search_sections (st : SimpleVectorStore) (oracle : SearchOracle)
    (query : String) (k : Nat) : List SectionResult :=
  match st.vector_store with
  | none => []
  | some _ =>
    match oracle query 20 with
    | .error _ => []
    | .ok results => sectionLoop k results [] []

def entryToSectionChunkResult (section_title : String) (doc : VSEntry) (score : Int) :
    ChunkResult :=
  { content := doc.page_content
    score := score
    filename := doc.metadata.filename
    chunk_id := doc.metadata.chunk_id
    section_title := some section_title
    hierarchy_level := doc.metadata.hierarchy_level
    parent_section := doc.metadata.parent_section
    structure_confidence := doc.metadata.structure_confidence
    source_grounding := doc.metadata.source_grounding }

/-- The result-scanning loop of `search_chunks_in_section`: keep hits whose
stored section title equals the requested one; after each iteration break
when `k` chunks have been collected. -/
def chunkLoop (section_title : String) (k : Nat) :
    List (VSEntry × Int) → List ChunkResult → List ChunkResult
  | [], acc => acc
  | hit :: rest, acc =>
    let acc' :=
      if hit.1.metadata.section_title = some section_title then
        acc ++ [entryToSectionChunkResult section_title hit.1 hit.2]
      else acc
    if k ≤ acc'.length then acc'
    else chunkLoop section_title k rest acc'

/-- `SimpleVectorStore.search_chunks_in_section`. -/
def SimpleVectorStore.search_chunks_in_section (st : SimpleVectorStore)
    (oracle : SearchOracle) (section_title query : String) (k : Nat) :
    List ChunkResult :=
  match st.vector_store with
  | none => []
  | some _ =>
    let indices := getKey st.section_to_chunks section_title
    if indices.isEmpty then []
    else
      match oracle query 20 with
      | .error _ => []
      | .ok results => chunkLoop section_title k results []

/-- Result shape of `hierarchical_search`. -/
structure HierResult where
  sections : List SectionResult
  chunks : List ChunkResult
deriving DecidableEq

/-- `SimpleVectorStore.hierarchical_search`. -/
def SimpleVectorStore.hierarchical_search (st : SimpleVectorStore)
    (oracle : SearchOracle) (query : String) (k_sections k_chunks : Nat) :
    HierResult :=
  let section_results := st.search_sections oracle query k_sections
  let all_chunks := section_results.foldl
    (fun acc s => acc ++ st.search_chunks_in_section oracle s.section_title query k_chunks)
    []
  { sections := section_results, chunks := all_chunks }

def entryToFlatChunkResult (doc : VSEntry) (score : Int) : ChunkResult :=
  { content := doc.page_content
    score := score
    filename := doc.metadata.filename
    chunk_id := doc.metadata.chunk_id
    section_title := doc.metadata.section_title
    hierarchy_level := doc.metadata.hierarchy_level
    parent_section := doc.metadata.parent_section
    structure_confidence := doc.metadata.structure_confidence
    source_grounding := doc.metadata.source_grounding }

/-- `SimpleVectorStore.search`: hierarchical delegation or flat search with
optional conversational context prepended to the query text
(`if context:` is Python truthiness, so the empty string is ignored). -/
def SimpleVectorStore.search (st : SimpleVectorStore) (oracle : SearchOracle)
    (query : String) (k : Nat) (context : Option String) (hierarchical : Bool) :
    List ChunkResult :=
  if hierarchical then (st.hierarchical_search oracle query 2 k).chunks
  else
    match st.vector_store with
    | none => []
    | some _ =>
      let enhanced_query :=
        match context with
        | some c => if c = "" then query else "Context: " ++ c ++ "\nQuestion: " ++ query
        | none => query
      match oracle enhanced_query k with
      | .error _ => []
      | .ok results => results.map fun hit => entryToFlatChunkResult hit.1 hit.2

/-- One entry of `get_document_summary`'s `documents` list. -/
structure DocSummaryEntry where
  id : String
  filename : String
  upload_date : Nat
  chunk_count : Nat
deriving DecidableEq

/-- Result shape of `get_document_summary`. -/
structure DocSummary where
  total_documents : Nat
  total_chunks : Nat
  documents : List DocSummaryEntry
deriving DecidableEq

/-- `SimpleVectorStore.get_document_summary`. -/
def SimpleVectorStore.get_document_summary (st : SimpleVectorStore) : DocSummary :=
  if st.documents.isEmpty then { total_documents := 0, total_chunks := 0, documents := [] }
  else
    { total_documents := st.documents.length
      total_chunks := (st.documents.map (fun d => d.chunk_count)).sum
      documents := st.documents.map fun d =>
        { id := d.id
          filename := d.filename
          upload_date := d.upload_date
          chunk_count := d.chunk_count } }

/-- `models.ConversationEntry` (fields the core reads; timestamps, token
counts and costs are opaque pass-through values). -/
structure ConversationEntry where
  id : String
  question : String
  answer : String
  timestamp : Nat
  sources : List String
  processing_time : Int
  total_tokens : Nat
  cost : Int
deriving DecidableEq

/-- `ConversationManager.get_conversation_history`:
`self.conversations[-limit:] if self.conversations else []` — note that
Python's `[-0:]` slice is the whole list. -/
def get_conversation_history (conversations : List ConversationEntry) (limit : Nat) :
    List ConversationEntry :=
  if conversations.isEmpty then []
  else if limit = 0 then conversations
  else conversations.drop (conversations.length - limit)

/-- `ConversationManager.get_conversation_context`: header plus
`"Q: …\nA: …\n\n"` blocks accumulated in list (chronological) order. -/
def get_conversation_context (conversations : List ConversationEntry)
    (context_length : Nat) : String :=
  let recent := get_conversation_history conversations context_length
  if recent.isEmpty then ""
  else
    recent.foldl
      (fun ctx conv => ctx ++ "Q: " ++ conv.question ++ "\nA: " ++ conv.answer ++ "\n\n")
      "Recent conversation context:\n"

/-- The `/upload` route's core: `process_multiple_pdfs` then
`add_documents` (one successful ingestion call). -/
def ingest (env : Env) (files : List UploadFile) (st : SimpleVectorStore) :
    SimpleVectorStore :=
  let result := process_multiple_pdfs files
  st.add_documents env result.1 result.2

/-- Operations that mutate the index state, for stating reachability
invariants. -/
inductive StoreOp where
  | add (env : Env) (docs : List DocumentMetadata) (cs : List DocumentChunk)
  | reset
deriving DecidableEq

def applyOp (st : SimpleVectorStore) : StoreOp → SimpleVectorStore
  | .add env docs cs => st.add_documents env docs cs
  | .reset => st.reset_embeddings

/-- Run a sequence of index operations from the freshly constructed store. -/
def runOps (ops : List StoreOp) : SimpleVectorStore :=
  ops.foldl applyOp SimpleVectorStore.init

/-- Run a sequence of ingestion calls (`/upload`) from the fresh store. -/
def runIngests (steps : List (Env × List UploadFile)) : SimpleVectorStore :=
  steps.foldl (fun st p => ingest p.1 p.2 st) SimpleVectorStore.init

/-! ## Frame lemmas for `add_documents` -/

theorem add_documents_documents (st : SimpleVectorStore) (env : Env)
    (docs : List DocumentMetadata) (cs : List DocumentChunk) :
    (st.add_documents env docs cs).documents = st.documents ++ docs := by
  cases st with
  | mk d c e v t m =>
    simp only [SimpleVectorStore.add_documents, initEmbeddings]
    cases e <;> cases env.embedAvailable <;> cases env.faissOk <;> cases v <;>
      by_cases hcs : cs.isEmpty <;> simp [hcs]

theorem add_documents_chunks (st : SimpleVectorStore) (env : Env)
    (docs : List DocumentMetadata) (cs : List DocumentChunk) :
    (st.add_documents env docs cs).chunks = st.chunks ++ cs := by
  cases st with
  | mk d c e v t m =>
    simp only [SimpleVectorStore.add_documents, initEmbeddings]
    cases e <;> cases env.embedAvailable <;> cases env.faissOk <;> cases v <;>
      by_cases hcs : cs.isEmpty <;> simp [hcs]

theorem add_documents_section_to_chunks (st : SimpleVectorStore) (env : Env)
    (docs : List DocumentMetadata) (cs : List DocumentChunk) :
    (st.add_documents env docs cs).section_to_chunks =
      (recordLoop st.chunks.length 0 cs (st.section_titles, st.section_to_chunks)).2 := by
  cases st with
  | mk d c e v t m =>
    simp only [SimpleVectorStore.add_documents, initEmbeddings]
    cases e <;> cases env.embedAvailable <;> cases env.faissOk <;> cases v <;>
      by_cases hcs : cs.isEmpty <;> simp [hcs]

/-! ## Batch processing lemmas -/

theorem processFile_extract_error (f : UploadFile) (err : String)
    (h : f.extractResult = .error err) : processFile f = none := by
  unfold processFile
  cases ht : f.textResult with
  | error e => rfl
  | ok text =>
    rw [h]
    by_cases hb : pyStrip text = "" <;> simp [hb]

theorem processFile_chunk_count (f : UploadFile) (d : DocumentMetadata)
    (cs : List DocumentChunk) (h : processFile f = some (d, cs)) :
    d.chunk_count = cs.length := by
  unfold processFile at h
  cases ht : f.textResult with
  | error e => rw [ht] at h; exact absurd h (by simp)
  | ok text =>
    rw [ht] at h
    by_cases hb : pyStrip text = ""
    · simp [hb] at h
    · simp only [hb, if_false, if_neg hb] at h
      cases hx : f.extractResult with
      | error e => rw [hx] at h; exact absurd h (by simp)
      | ok extractions =>
        rw [hx] at h
        simp only [Option.some.injEq, Prod.mk.injEq] at h
        obtain ⟨hd, hcs⟩ := h
        subst hd
        subst hcs
        rfl

/-- The counting invariant of the `(all_documents, all_chunks)` accumulator. -/
def accCountInv (acc : List DocumentMetadata × List DocumentChunk) : Prop :=
  acc.2.length = (acc.1.map (fun d => d.chunk_count)).sum

theorem processStep_counts (acc : List DocumentMetadata × List DocumentChunk)
    (f : UploadFile) (h : accCountInv acc) : accCountInv (processStep acc f) := by
  unfold processStep
  cases hp : processFile f with
  | none => exact h
  | some dc =>
    obtain ⟨d, cs⟩ := dc
    have hdc := processFile_chunk_count f d cs hp
    unfold accCountInv at h ⊢
    simp [h, hdc]

theorem foldl_processStep_counts (files : List UploadFile) :
    ∀ acc, accCountInv acc → accCountInv (files.foldl processStep acc) := by
  induction files with
  | nil => intro acc h; exact h
  | cons f rest ih =>
    intro acc h
    exact ih (processStep acc f) (processStep_counts acc f h)

/-- The chunk list produced by one batch is exactly as long as the sum of
the produced documents' finalized `chunk_count`s. -/
theorem process_multiple_pdfs_counts (files : List UploadFile) :
    (process_multiple_pdfs files).2.length =
      ((process_multiple_pdfs files).1.map (fun d => d.chunk_count)).sum :=
  foldl_processStep_counts files ([], []) rfl

/-! ## Section-map well-formedness (§3b) -/

/-- The §3b invariant of a section map `m` with respect to a chunk list:
every listed position indexes a chunk whose section-title metadata equals
the mapping key. -/
def SectionMapWF (chunksAll : List DocumentChunk) (m : List (String × List Nat)) : Prop :=
  ∀ t ps, (t, ps) ∈ m → ∀ p ∈ ps,
    ∃ c, chunksAll.get? p = some c ∧ c.metadata.section_title = some t

theorem truthyTitle_some {o : Option String} {t : String}
    (h : truthyTitle o = some t) : o = some t := by
  cases o with
  | none => exact absurd h (by simp [truthyTitle])
  | some s =>
    by_cases hs : s = ""
    · simp [truthyTitle, hs] at h
    · simp [truthyTitle, hs] at h
      rw [h]

theorem appendToKey_WF (ch : List DocumentChunk) (m : List (String × List Nat))
    (t : String) (v : Nat) (hm : SectionMapWF ch m)
    (hv : ∃ c, ch.get? v = some c ∧ c.metadata.section_title = some t) :
    SectionMapWF ch (appendToKey m t v) := by
  intro t' ps' hmem p hp
  unfold appendToKey at hmem
  by_cases hany : m.any (fun q => q.1 = t)
  · rw [if_pos hany] at hmem
    obtain ⟨q, hq, hqe⟩ := List.mem_map.mp hmem
    by_cases hqt : q.1 = t
    · rw [if_pos hqt] at hqe
      obtain ⟨he1, he2⟩ := Prod.mk.injEq .. ▸ hqe
      rcases List.mem_append.mp (he2 ▸ hp) with hold | hnew
      · exact hm t' q.2 (by rw [← he1]; exact (Prod.mk.eta ▸ hq : (q.1, q.2) ∈ m)) p hold
      · have hpv : p = v := by simpa using hnew
        subst hpv
        rw [← he1, hqt]
        exact hv
    · rw [if_neg hqt] at hqe
      exact hm t' ps' (hqe ▸ hq) p hp
  · rw [if_neg hany] at hmem
    rcases List.mem_append.mp hmem with hold | hnew
    · exact hm t' ps' hold p hp
    · have : t' = t ∧ ps' = [v] := by simpa using hnew
      obtain ⟨ht', hps'⟩ := this
      have hpv : p = v := by simp [hps'] at hp; exact hp
      subst hpv
      rw [ht']
      exact hv

theorem SectionMapWF_append (ch ext : List DocumentChunk)
    (m : List (String × List Nat)) (hm : SectionMapWF ch m) :
    SectionMapWF (ch ++ ext) m := by
  intro t ps hmem p hp
  obtain ⟨c, hc, ht⟩ := hm t ps hmem p hp
  have hlt : p < ch.length := (List.get?_eq_some.mp hc).1
  refine ⟨c, ?_, ht⟩
  rw [List.get?_append hlt]
  exact hc

theorem recordLoop_WF (ch : List DocumentChunk) (base : Nat)
    (rest : List DocumentChunk) :
    ∀ (idx : Nat) (sts : List String) (m : List (String × List Nat)),
      SectionMapWF ch m →
      (∀ j c, rest.get? j = some c → ch.get? (base + idx + j) = some c) →
      SectionMapWF ch (recordLoop base idx rest (sts, m)).2 := by
  induction rest with
  | nil => intro idx sts m hm _; exact hm
  | cons c rest ih =>
    intro idx sts m hm hrest
    unfold recordLoop
    have hshift : ∀ j c', rest.get? j = some c' → ch.get? (base + (idx + 1) + j) = some c' := by
      intro j c' hj
      have := hrest (j + 1) c' (by simpa using hj)
      have harith : base + idx + (j + 1) = base + (idx + 1) + j := by omega
      rw [harith] at this
      exact this
    cases htt : truthyTitle c.metadata.section_title with
    | none => exact ih (idx + 1) sts m hm hshift
    | some t =>
      apply ih (idx + 1)
      · apply appendToKey_WF ch m t (base + idx) hm
        refine ⟨c, ?_, truthyTitle_some htt⟩
        have := hrest 0 c rfl
        rw [Nat.add_zero] at this
        exact this
      · exact hshift

theorem add_documents_WF (st : SimpleVectorStore) (env : Env)
    (docs : List DocumentMetadata) (cs : List DocumentChunk)
    (h : SectionMapWF st.chunks st.section_to_chunks) :
    SectionMapWF (st.add_documents env docs cs).chunks
      (st.add_documents env docs cs).section_to_chunks := by
  rw [add_documents_chunks, add_documents_section_to_chunks]
  apply recordLoop_WF
  · exact SectionMapWF_append _ _ _ h
  · intro j c hj
    rw [Nat.add_zero, List.get?_append_right (Nat.le_add_right _ _),
      Nat.add_sub_cancel_left]
    exact hj

theorem applyOp_WF (st : SimpleVectorStore) (op : StoreOp)
    (h : SectionMapWF st.chunks st.section_to_chunks) :
    SectionMapWF (applyOp st op).chunks (applyOp st op).section_to_chunks := by
  cases op with
  | add env docs cs => exact add_documents_WF st env docs cs h
  | reset =>
    intro t ps hmem p hp
    exact absurd hmem (by simp [applyOp, SimpleVectorStore.reset_embeddings])

theorem foldl_applyOp_WF (ops : List StoreOp) :
    ∀ st, SectionMapWF st.chunks st.section_to_chunks →
      SectionMapWF (ops.foldl applyOp st).chunks
        (ops.foldl applyOp st).section_to_chunks := by
  induction ops with
  | nil => exact fun st h => h
  | cons op rest ih =>
    intro st h
    rw [List.foldl_cons]
    exact ih (applyOp st op) (applyOp_WF st op h)

/-! ## Searches against an uninitialized backend -/

theorem search_sections_of_vsNone (st : SimpleVectorStore) (oracle : SearchOracle)
    (query : String) (k : Nat) (h : st.vector_store = none) :
    st.search_sections oracle query k = [] := by
  simp [SimpleVectorStore.search_sections, h]

theorem search_chunks_in_section_of_vsNone (st : SimpleVectorStore)
    (oracle : SearchOracle) (title query : String) (k : Nat)
    (h : st.vector_store = none) :
    st.search_chunks_in_section oracle title query k = [] := by
  simp [SimpleVectorStore.search_chunks_in_section, h]

theorem hierarchical_search_of_vsNone (st : SimpleVectorStore) (oracle : SearchOracle)
    (query : String) (k_sections k_chunks : Nat) (h : st.vector_store = none) :
    st.hierarchical_search oracle query k_sections k_chunks =
      { sections := [], chunks := [] } := by
  simp [SimpleVectorStore.hierarchical_search, search_sections_of_vsNone st oracle query k_sections h]

theorem search_flat_of_vsNone (st : SimpleVectorStore) (oracle : SearchOracle)
    (query : String) (k : Nat) (context : Option String)
    (h : st.vector_store = none) :
    st.search oracle query k context false = [] := by
  simp [SimpleVectorStore.search, h]

/-! ## Searches under a raising backend/provider -/

theorem search_sections_error (st : SimpleVectorStore) (e query : String) (k : Nat) :
    st.search_sections (fun _ _ => Except.error e) query k = [] := by
  cases h : st.vector_store <;> simp [SimpleVectorStore.search_sections, h]

theorem search_chunks_in_section_error (st : SimpleVectorStore)
    (e title query : String) (k : Nat) :
    st.search_chunks_in_section (fun _ _ => Except.error e) title query k = [] := by
  cases h : st.vector_store <;>
    simp [SimpleVectorStore.search_chunks_in_section, h]

theorem hierarchical_search_error (st : SimpleVectorStore) (e query : String)
    (k_sections k_chunks : Nat) :
    st.hierarchical_search (fun _ _ => Except.error e) query k_sections k_chunks =
      { sections := [], chunks := [] } := by
  simp [SimpleVectorStore.hierarchical_search, search_sections_error st e query k_sections]

theorem search_flat_error (st : SimpleVectorStore) (e query : String) (k : Nat)
    (context : Option String) :
    st.search (fun _ _ => Except.error e) query k context false = [] := by
  cases h : st.vector_store <;> simp [SimpleVectorStore.search, h]

/-! ## Search loop bounds -/

theorem sectionLoop_length_le (k : Nat) (results : List (VSEntry × Int)) :
    ∀ seen acc, acc.length < k → (sectionLoop k results seen acc).length ≤ k := by
  induction results with
  | nil => intro seen acc h; exact Nat.le_of_lt h
  | cons hit rest ih =>
    intro seen acc h
    unfold sectionLoop
    cases htt : truthyTitle hit.1.metadata.section_title with
    | none =>
      simp only [htt]
      rw [if_neg (by omega)]
      exact ih seen acc h
    | some t =>
      simp only [htt]
      by_cases hseen : t ∈ seen
      · rw [if_pos hseen]
        simp only
        rw [if_neg (by omega)]
        exact ih seen acc h
      · rw [if_neg hseen]
        simp only
        by_cases hstop : k ≤ (acc ++ [SectionResult.mk t hit.2]).length
        · rw [if_pos hstop]
          simp only [List.length_append, List.length_cons, List.length_nil]
          omega
        · rw [if_neg hstop]
          exact ih _ _ (by simp at hstop ⊢; omega)

theorem sectionLoop_nodup (k : Nat) (results : List (VSEntry × Int)) :
    ∀ seen acc,
      (acc.map (fun r => r.section_title)).Nodup →
      (∀ r ∈ acc, r.section_title ∈ seen) →
      ((sectionLoop k results seen acc).map (fun r => r.section_title)).Nodup := by
  induction results with
  | nil => intro seen acc h _; exact h
  | cons hit rest ih =>
    intro seen acc hnd hsub
    unfold sectionLoop
    cases htt : truthyTitle hit.1.metadata.section_title with
    | none =>
      simp only [htt]
      split
      · exact hnd
      · exact ih seen acc hnd hsub
    | some t =>
      simp only [htt]
      by_cases hseen : t ∈ seen
      · rw [if_pos hseen]
        simp only
        split
        · exact hnd
        · exact ih seen acc hnd hsub
      · rw [if_neg hseen]
        have hnotin : t ∉ acc.map (fun r => r.section_title) := by
          intro hmem
          obtain ⟨r, hr, hrt⟩ := List.mem_map.mp hmem
          exact hseen (hrt ▸ hsub r hr)
        have hnd' : ((acc ++ [SectionResult.mk t hit.2]).map
            (fun r => r.section_title)).Nodup := by
          simp only [List.map_append, List.map_cons, List.map_nil]
          rw [List.nodup_append]
          refine ⟨hnd, List.nodup_singleton t, ?_⟩
          intro x hx hxt
          simp at hxt
          exact hnotin (hxt ▸ hx)
        have hsub' : ∀ r ∈ acc ++ [SectionResult.mk t hit.2],
            r.section_title ∈ t :: seen := by
          intro r hr
          rcases List.mem_append.mp hr with h1 | h2
          · exact List.mem_cons_of_mem t (hsub r h1)
          · simp at h2
            rw [h2]
            exact List.mem_cons_self t seen
        simp only
        split
        · exact hnd'
        · exact ih _ _ hnd' hsub'

theorem chunkLoop_length_le (title : String) (k : Nat)
    (results : List (VSEntry × Int)) :
    ∀ acc, acc.length < k → (chunkLoop title k results acc).length ≤ k := by
  induction results with
  | nil => intro acc h; exact Nat.le_of_lt h
  | cons hit rest ih =>
    intro acc h
    unfold chunkLoop
    by_cases hmatch : hit.1.metadata.section_title = some title
    · rw [if_pos hmatch]
      simp only
      by_cases hstop : k ≤ (acc ++ [entryToSectionChunkResult title hit.1 hit.2]).length
      · rw [if_pos hstop]
        simp only [List.length_append, List.length_cons, List.length_nil]
        omega
      · rw [if_neg hstop]
        exact ih _ (by simp at hstop ⊢; omega)
    · rw [if_neg hmatch]
      simp only
      rw [if_neg (by omega)]
      exact ih acc h

theorem search_sections_length_le (st : SimpleVectorStore) (oracle : SearchOracle)
    (query : String) (k : Nat) (hk : 1 ≤ k) :
    (st.search_sections oracle query k).length ≤ k := by
  unfold SimpleVectorStore.search_sections
  cases st.vector_store with
  | none => simp
  | some entries =>
    cases oracle query 20 with
    | error e => simp
    | ok results => exact sectionLoop_length_le k results [] [] (by simpa using hk)

theorem search_sections_nodup (st : SimpleVectorStore) (oracle : SearchOracle)
    (query : String) (k : Nat) :
    ((st.search_sections oracle query k).map (fun r => r.section_title)).Nodup := by
  unfold SimpleVectorStore.search_sections
  cases st.vector_store with
  | none => simp
  | some entries =>
    cases oracle query 20 with
    | error e => simp
    | ok results =>
      exact sectionLoop_nodup k results [] [] (by simp) (by simp)

theorem search_chunks_in_section_length_le (st : SimpleVectorStore)
    (oracle : SearchOracle) (title query : String) (k : Nat) (hk : 1 ≤ k) :
    (st.search_chunks_in_section oracle title query k).length ≤ k := by
  unfold SimpleVectorStore.search_chunks_in_section
  cases st.vector_store with
  | none => simp
  | some entries =>
    simp only
    split
    · simp
    · cases oracle query 20 with
      | error e => simp
      | ok results => exact chunkLoop_length_le title k results [] (by simpa using hk)

theorem hier_chunks_foldl_le (st : SimpleVectorStore) (oracle : SearchOracle)
    (query : String) (k_chunks : Nat) (hkc : 1 ≤ k_chunks)
    (sections : List SectionResult) :
    ∀ acc : List ChunkResult,
      (sections.foldl
        (fun acc s => acc ++ st.search_chunks_in_section oracle s.section_title query k_chunks)
        acc).length ≤ acc.length + sections.length * k_chunks := by
  induction sections with
  | nil => intro acc; simp
  | cons s rest ih =>
    intro acc
    rw [List.foldl_cons]
    have h1 := ih (acc ++ st.search_chunks_in_section oracle s.section_title query k_chunks)
    have h2 := search_chunks_in_section_length_le st oracle s.section_title query k_chunks hkc
    simp only [List.length_append] at h1
    simp only [List.length_cons]
    have h3 : (rest.length + 1) * k_chunks = rest.length * k_chunks + k_chunks := by ring
    omega

/-! ## Concrete fixtures for witnesses and counterexamples -/

def exDoc : DocumentMetadata :=
  { id := "doc-1", filename := "file.pdf", upload_date := 0
    file_size := 11, page_count := 1, chunk_count := 1 }

def exChunk : DocumentChunk :=
  { id := "chunk-1", document_id := "doc-1", content := "Intro\n\nbody"
    chunk_index := 0, page_number := 1
    metadata :=
      { filename := some "file.pdf", chunk_size := some 11, total_chunks := some 1
        hierarchy_level := some 1, parent_section := none
        section_title := some "Introduction", structure_confidence := some 1
        source_grounding := some "Intro" } }

/-- A store after one fully successful ingestion of `exDoc`/`exChunk`. -/
def stReady : SimpleVectorStore :=
  SimpleVectorStore.init.add_documents { embedAvailable := true, faissOk := true }
    [exDoc] [exChunk]

/-- A healthy backend oracle returning the one stored entry. -/
def okOracle : SearchOracle := fun _ _ => Except.ok [(chunkToEntry exChunk, 0)]

/-- The worked document of spec §8: header `"1. Introduction"` at offsets
0–15, header `"1.1 Background"` at offsets 40–54, total length 80. -/
def exText : String :=
  "1. Introduction" ++ "xxxxxxxxxxxxxxxxxxxxxxxxx" ++
    "1.1 Background" ++ "yyyyyyyyyyyyyyyyyyyyyyyyyy"

def exIntro : Extraction :=
  { extraction_class := "section", extraction_text := "1. Introduction"
    char_interval := { start_pos := 0, end_pos := 15 }
    level := some 1, title := some "Introduction", parent := none, confidence := none }

def exBackground : Extraction :=
  { extraction_class := "section", extraction_text := "1.1 Background"
    char_interval := { start_pos := 40, end_pos := 54 }
    level := some 2, title := some "Background", parent := some "1. Introduction"
    confidence := none }

/-- A non-section span the provider found between the two headers. -/
def exFigure : Extraction :=
  { extraction_class := "figure", extraction_text := "xxx"
    char_interval := { start_pos := 20, end_pos := 23 }
    level := none, title := none, parent := none, confidence := none }

def exGoodFile : UploadFile :=
  { filename := "good.pdf", textResult := .ok exText
    extractResult := .ok [exIntro, exBackground], docId := "doc-good", uploadDate := 0 }

def exBadFile : UploadFile :=
  { filename := "bad.pdf", textResult := .ok exText
    extractResult := .error "extraction provider quota exceeded"
    docId := "doc-bad", uploadDate := 0 }

def exConv : ConversationEntry :=
  { id := "conv-1", question := "hi", answer := "yo", timestamp := 0
    sources := [], processing_time := 0, total_tokens := 0, cost := 0 }

/-! ## Hierarchy-extraction helper lemmas -/

theorem buildChunk_content (text docId fname cid : String)
    (sorted : List Extraction) (i : Nat) (e : Extraction) :
    (buildChunk text docId fname cid sorted i e).content =
      e.extraction_text ++ "\n\n" ++
        pyStrip (pySlice text e.char_interval.end_pos
          (((sorted.get? (i + 1)).map (fun nxt => nxt.char_interval.start_pos)).getD
            text.length)) := by
  unfold buildChunk
  cases h : sorted.get? (i + 1) <;> simp [h]

/-- Rendering of conversation turns as `"Q: …\nA: …\n\n"` blocks, oldest
first — the spec §4.5 wording, for comparison with the code's
accumulation. -/
def renderBlocks (turns : List ConversationEntry) : String :=
  String.join (turns.map fun conv => "Q: " ++ conv.question ++ "\nA: " ++ conv.answer ++ "\n\n")

theorem string_foldl_append (l : List String) :
    ∀ start : String,
      l.foldl (fun r s => r ++ s) start = start ++ l.foldl (fun r s => r ++ s) "" := by
  induction l with
  | nil => intro start; simp
  | cons s rest ih =>
    intro start
    rw [List.foldl_cons, List.foldl_cons, ih (start ++ s), ih ("" ++ s)]
    simp [String.append_assoc]

theorem foldl_append_blocks (l : List ConversationEntry) :
    ∀ start : String,
      l.foldl (fun ctx conv => ctx ++ "Q: " ++ conv.question ++ "\nA: " ++ conv.answer ++ "\n\n")
          start
        = start ++ renderBlocks l := by
  induction l with
  | nil => intro start; simp [renderBlocks, String.join]
  | cons c rest ih =>
    intro start
    rw [List.foldl_cons, ih]
    unfold renderBlocks String.join
    rw [List.map_cons, List.foldl_cons,
      string_foldl_append _ ("" ++ ("Q: " ++ c.question ++ "\nA: " ++ c.answer ++ "\n\n"))]
    simp [String.append_assoc]

/-! ## Claim theorems -/

/-- C3 (counterexample): with a non-section span (`exFigure`, offsets
20–23) sitting between the two headers, the claim's predictions fail at
this concrete input: the produced chunk indices are `[0, 2]` — positions in
the full sorted extraction list — where the claim predicts `[0, 1]`
(positions among sorted headers), and the first chunk's content stops at
the non-section span's start offset 20 (`"xxxxx"`, five `x`s) instead of at
the next header's start offset 40 (twenty-five `x`s). -/
theorem chunk_construction_cex :
    ((buildChunks exText "doc-good" "good.pdf"
        (sortByStart [exIntro, exFigure, exBackground])).map
      (fun c => c.chunk_index)) = [0, 2] ∧
    ((buildChunks exText "doc-good" "good.pdf"
        (sortByStart [exIntro, exFigure, exBackground])).map
      (fun c => c.content)) =
      ["1. Introduction\n\nxxxxx",
       "1.1 Background\n\nyyyyyyyyyyyyyyyyyyyyyyyyyy"] ∧
    [0, 2] ≠ [0, 1] :=
  ⟨rfl, by decide, by decide⟩

/-- C3 (amended): all extraction spans are first sorted (stably) by start
offset; for the extraction at position `i` **of the full sorted list**
classified as a section header there is a chunk whose content runs from
that header's end offset to the start offset of the **next extraction of
any class** in sorted order (or the end of the document), trimmed; its text
is the header's literal text, a blank line, and that content; its chunk
index is `i`, its position in the full sorted extraction list. -/
theorem chunk_construction (text docId fname : String)
    (extractions : List Extraction) (i : Nat) (e : Extraction)
    (hi : (sortByStart extractions).get? i = some e)
    (hsec : e.extraction_class = "section") :
    ∃ c, c ∈ buildChunks text docId fname (sortByStart extractions) ∧
      c.chunk_index = i ∧
      c.content = e.extraction_text ++ "\n\n" ++
        pyStrip (pySlice text e.char_interval.end_pos
          ((((sortByStart extractions).get? (i + 1)).map
            (fun nxt => nxt.char_interval.start_pos)).getD text.length)) ∧
      c.metadata.section_title = e.title ∧
      c.metadata.parent_section = e.parent ∧
      c.metadata.hierarchy_level = e.level ∧
      c.metadata.source_grounding = some e.extraction_text := by
  refine ⟨buildChunk text docId fname "" (sortByStart extractions) i e, ?_,
    rfl, buildChunk_content text docId fname "" (sortByStart extractions) i e,
    rfl, rfl, rfl, rfl⟩
  unfold buildChunks
  apply List.mem_filterMap.mpr
  refine ⟨(i, e), List.mk_mem_enum_iff_get?.mpr hi, ?_⟩
  rw [if_pos hsec]

/-- C3 (witness): the spec §8 document — two headers, no interleaved span —
instantiates the amended claim at sorted position 1. -/
theorem chunk_construction_witness :
    ∃ c, c ∈ buildChunks exText "doc-good" "good.pdf"
        (sortByStart [exIntro, exBackground]) ∧
      c.chunk_index = 1 ∧
      c.content = exBackground.extraction_text ++ "\n\n" ++
        pyStrip (pySlice exText exBackground.char_interval.end_pos
          ((((sortByStart [exIntro, exBackground]).get? 2).map
            (fun nxt => nxt.char_interval.start_pos)).getD exText.length)) ∧
      c.metadata.section_title = exBackground.title ∧
      c.metadata.parent_section = exBackground.parent ∧
      c.metadata.hierarchy_level = exBackground.level ∧
      c.metadata.source_grounding = some exBackground.extraction_text :=
  chunk_construction exText "doc-good" "good.pdf" [exIntro, exBackground] 1
    exBackground (by decide) (by decide)

/-- C9 (counterexample): with bound `n = 0` and one stored turn, the claim
predicts the rendered context is the fixed header followed by the most
recent zero turns — no turn blocks; but Python's `conversations[-0:]`
slice is the whole list, so the rendered context contains the turn. -/
theorem conversation_context_cex :
    get_conversation_context [exConv] 0 =
      "Recent conversation context:\nQ: hi\nA: yo\n\n" ∧
    get_conversation_context [exConv] 0 ≠ "Recent conversation context:\n" :=
  ⟨rfl, by decide⟩

/-- C9 (amended): for every bound `n ≥ 1` the rendered context is the empty
string when no turns exist, and otherwise the fixed header followed by the
most recent `n` turns as `"Q: …\nA: …"` blocks oldest-first (for `n = 0`
the `[-0:]` slice instead renders **all** turns); and whenever a non-empty
context accompanies a flat query, the text the similarity backend receives
is exactly `"Context: <context>\nQuestion: <query>"` — the context only
reshapes that one query and is never added to the index. -/
theorem conversation_context_spec (conversations : List ConversationEntry)
    (n k : Nat) (st : SimpleVectorStore) (oracle : SearchOracle) (query c : String)
    (hn : 1 ≤ n) (hne : conversations ≠ []) (hc : c ≠ "") :
    get_conversation_context conversations n =
      "Recent conversation context:\n" ++
        renderBlocks (conversations.drop (conversations.length - n)) ∧
    get_conversation_context [] n = "" ∧
    st.search oracle query k (some c) false =
      st.search (fun _ kk => oracle ("Context: " ++ c ++ "\nQuestion: " ++ query) kk)
        query k none false := by
  have hie : conversations.isEmpty = false := by
    cases conversations with
    | nil => exact absurd rfl hne
    | cons a l => rfl
  have hn0 : ¬ n = 0 := by omega
  have hlen : 0 < conversations.length := List.length_pos.mpr hne
  have hdne : conversations.drop (conversations.length - n) ≠ [] := by
    intro hdrop
    have hl := congrArg List.length hdrop
    rw [List.length_drop, List.length_nil] at hl
    omega
  have hhist : get_conversation_history conversations n =
      conversations.drop (conversations.length - n) := by
    unfold get_conversation_history
    rw [if_neg (by rw [hie]; exact Bool.false_ne_true), if_neg hn0]
  refine ⟨?_, rfl, ?_⟩
  · unfold get_conversation_context
    rw [hhist, if_neg (by rw [List.isEmpty_iff]; exact hdne)]
    exact foldl_append_blocks _ _
  · unfold SimpleVectorStore.search
    cases hv : st.vector_store with
    | none => simp [hv]
    | some entries => simp [hv, hc]

/-- C9 (witness): one stored turn, bound 1, and a non-empty context string
at a populated store. -/
theorem conversation_context_spec_witness :
    (get_conversation_context [exConv] 1 =
      "Recent conversation context:\n" ++
        renderBlocks ([exConv].drop ([exConv].length - 1)) ∧
    get_conversation_context [] 1 = "" ∧
    stReady.search okOracle "q" 4 (some "prior") false =
      stReady.search (fun _ kk => okOracle ("Context: " ++ "prior" ++ "\nQuestion: " ++ "q") kk)
        "q" 4 none false) :=
  conversation_context_spec [exConv] 1 4 stReady okOracle "q" "prior"
    (by decide) (by decide) (by decide)

/-- C4: an extraction-provider error on one document of a batch does not
abort the batch — the failing document is skipped and
`process_multiple_pdfs` returns exactly the documents and chunks of the
remaining documents (partial success, never a whole-call failure). -/
theorem batch_skips_failed_document (pre post : List UploadFile) (bad : UploadFile)
    (err : String) (h : bad.extractResult = .error err) :
    process_multiple_pdfs (pre ++ bad :: post) = process_multiple_pdfs (pre ++ post) := by
  unfold process_multiple_pdfs
  rw [List.foldl_append, List.foldl_append, List.foldl_cons]
  have hskip : processStep (List.foldl processStep ([], []) pre) bad =
      List.foldl processStep ([], []) pre := by
    unfold processStep
    rw [processFile_extract_error bad err h]
  rw [hskip]

/-- C4 (witness): a two-file batch whose second file fails extraction
returns exactly the one-file batch's result. -/
theorem batch_skips_failed_document_witness :
    process_multiple_pdfs [exGoodFile, exBadFile] = process_multiple_pdfs [exGoodFile] :=
  batch_skips_failed_document [exGoodFile] [] exBadFile
    "extraction provider quota exceeded" rfl

/-- C6: in every state reachable from the empty index by `add_documents`
and `reset_embeddings` calls, every position listed under a title in
`section_to_chunks` is a valid index into the global chunk list, and the
chunk there carries that title as its section-title metadata. -/
theorem section_map_invariant (ops : List StoreOp) (t : String) (ps : List Nat)
    (p : Nat) (hmem : (t, ps) ∈ (runOps ops).section_to_chunks) (hp : p ∈ ps) :
    ∃ c, (runOps ops).chunks.get? p = some c ∧ c.metadata.section_title = some t := by
  have hinit : SectionMapWF SimpleVectorStore.init.chunks
      SimpleVectorStore.init.section_to_chunks := by
    intro t' ps' hmem' p' _
    exact absurd hmem' (by simp [SimpleVectorStore.init])
  exact foldl_applyOp_WF ops SimpleVectorStore.init hinit t ps hmem p hp

/-- C6 (witness): after one successful ingestion the mapping lists
position 0 under "Introduction", and the chunk there indeed carries that
section title. -/
theorem section_map_invariant_witness :
    ∃ c, (runOps [StoreOp.add { embedAvailable := true, faissOk := true }
        [exDoc] [exChunk]]).chunks.get? 0 = some c ∧
      c.metadata.section_title = some "Introduction" :=
  section_map_invariant
    [StoreOp.add { embedAvailable := true, faissOk := true } [exDoc] [exChunk]]
    "Introduction" [0] 0 (by decide) (by decide)

/-- The §3a counting invariant of an index state. -/
def CountInv (st : SimpleVectorStore) : Prop :=
  st.chunks.length = (st.documents.map (fun d => d.chunk_count)).sum

theorem ingest_preserves_CountInv (env : Env) (files : List UploadFile)
    (st : SimpleVectorStore) (h : CountInv st) : CountInv (ingest env files st) := by
  unfold ingest CountInv
  rw [add_documents_chunks, add_documents_documents]
  simp [CountInv] at h
  simp [h, process_multiple_pdfs_counts files]

theorem runIngests_CountInv (steps : List (Env × List UploadFile)) :
    CountInv (runIngests steps) := by
  unfold runIngests
  have : ∀ st, CountInv st →
      CountInv (steps.foldl (fun st p => ingest p.1 p.2 st) st) := by
    induction steps with
    | nil => intro st h; exact h
    | cons p rest ih =>
      intro st h
      exact ih (ingest p.1 p.2 st) (ingest_preserves_CountInv p.1 p.2 st h)
  exact this SimpleVectorStore.init rfl

/-- C5: after every sequence of ingestion calls from the empty index, the
global chunk list is exactly as long as the sum of `chunk_count` over all
recorded documents, and the `total_chunks` the document summary reports
equals the number of chunks held. -/
theorem total_chunks_invariant (steps : List (Env × List UploadFile)) :
    (runIngests steps).chunks.length =
      ((runIngests steps).documents.map (fun d => d.chunk_count)).sum ∧
    (runIngests steps).get_document_summary.total_chunks =
      (runIngests steps).chunks.length := by
  have h := runIngests_CountInv steps
  unfold CountInv at h
  refine ⟨h, ?_⟩
  unfold SimpleVectorStore.get_document_summary
  by_cases hd : (runIngests steps).documents.isEmpty
  · rw [List.isEmpty_iff] at hd
    simp [hd] at h
    simp [hd, h]
  · simp [hd]
    exact h.symm

/-- C1: evaluation of `add_documents` at the failing input. When the
embedding provider is unavailable (`embedAvailable := false`) — and likewise
when the FAISS build raises mid-call (`faissOk := false`) — the call still
extends the documents list, the chunks list and the section-to-positions
mapping; only the backend vector index is left untouched. The state
observable afterwards does not equal the state before the call, refuting
the all-or-nothing behaviour the code's own
"Cannot add documents without embeddings" abort message announces. -/
theorem add_documents_partial_update_on_provider_failure :
    (SimpleVectorStore.init.add_documents { embedAvailable := false, faissOk := true }
        [exDoc] [exChunk]).documents = [exDoc] ∧
    (SimpleVectorStore.init.add_documents { embedAvailable := false, faissOk := true }
        [exDoc] [exChunk]).chunks = [exChunk] ∧
    (SimpleVectorStore.init.add_documents { embedAvailable := false, faissOk := true }
        [exDoc] [exChunk]).section_to_chunks = [("Introduction", [0])] ∧
    (SimpleVectorStore.init.add_documents { embedAvailable := false, faissOk := true }
        [exDoc] [exChunk]).vector_store = none ∧
    SimpleVectorStore.init.add_documents { embedAvailable := false, faissOk := true }
        [exDoc] [exChunk] ≠ SimpleVectorStore.init ∧
    (SimpleVectorStore.init.add_documents { embedAvailable := true, faissOk := false }
        [exDoc] [exChunk]).chunks = [exChunk] ∧
    (SimpleVectorStore.init.add_documents { embedAvailable := true, faissOk := false }
        [exDoc] [exChunk]).vector_store = none := by
  refine ⟨rfl, rfl, rfl, rfl, ?_, rfl, rfl⟩
  decide

/-- C2 (counterexample): on an initialized index, a provider/backend error
raised inside `similarity_search_with_score` is caught and converted into
`[]` — byte-for-byte the same observable result as a successful search over
an index with no matches — rather than propagating to the caller as an
explicit failure. -/
theorem search_swallows_provider_error_cex :
    stReady.vector_store.isSome = true ∧
    SimpleVectorStore.search stReady (fun _ _ => Except.error "provider unreachable")
        "q" 4 none false = [] ∧
    SimpleVectorStore.search stReady (fun _ _ => Except.ok []) "q" 4 none false = [] ∧
    SimpleVectorStore.search_sections stReady (fun _ _ => Except.error "provider unreachable")
        "q" 3 = [] := by
  exact ⟨rfl, rfl, rfl, rfl⟩

/-- C2 (amended): for every index state, a provider/backend exception during
`search`, `search_sections`, `search_chunks_in_section` or
`hierarchical_search` is caught and logged, and the empty result is
returned — indistinguishable from an empty-but-successful search. -/
theorem search_error_returns_empty (st : SimpleVectorStore) (e query title : String)
    (k k_sections k_chunks : Nat) (context : Option String) :
    st.search (fun _ _ => Except.error e) query k context false = [] ∧
    st.search_sections (fun _ _ => Except.error e) query k = [] ∧
    st.search_chunks_in_section (fun _ _ => Except.error e) title query k = [] ∧
    st.hierarchical_search (fun _ _ => Except.error e) query k_sections k_chunks =
      { sections := [], chunks := [] } :=
  ⟨search_flat_error st e query k context,
   search_sections_error st e query k,
   search_chunks_in_section_error st e title query k,
   hierarchical_search_error st e query k_sections k_chunks⟩

/-- C7 (counterexample): with `kSections = 0` the claim "at most
`kSections` sections" fails — the break check `len(section_results) >= k`
runs only after a result has been appended, so a populated index returns 1
section (and its chunks) even though 0 were requested. -/
theorem hierarchical_search_bound_fails_at_zero :
    ¬ (SimpleVectorStore.hierarchical_search stReady okOracle "q" 0 4).sections.length ≤ 0 := by
  decide

/-- C7 (amended): for every query and every `kSections ≥ 1`, `kChunks ≥ 1`,
`hierarchical_search` returns at most `kSections` sections with pairwise
distinct titles and at most `kSections × kChunks` chunks. (For a zero
bound the append-then-check break still lets one result through.) -/
theorem hierarchical_search_bounded (st : SimpleVectorStore) (oracle : SearchOracle)
    (query : String) (k_sections k_chunks : Nat)
    (hks : 1 ≤ k_sections) (hkc : 1 ≤ k_chunks) :
    (st.hierarchical_search oracle query k_sections k_chunks).sections.length ≤ k_sections ∧
    ((st.hierarchical_search oracle query k_sections k_chunks).sections.map
        (fun r => r.section_title)).Nodup ∧
    (st.hierarchical_search oracle query k_sections k_chunks).chunks.length ≤
      k_sections * k_chunks := by
  refine ⟨search_sections_length_le st oracle query k_sections hks,
    search_sections_nodup st oracle query k_sections, ?_⟩
  show ((st.search_sections oracle query k_sections).foldl
      (fun acc s => acc ++ st.search_chunks_in_section oracle s.section_title query k_chunks)
      []).length ≤ k_sections * k_chunks
  have h1 := hier_chunks_foldl_le st oracle query k_chunks hkc
    (st.search_sections oracle query k_sections) []
  have h2 := search_sections_length_le st oracle query k_sections hks
  have h3 : (st.search_sections oracle query k_sections).length * k_chunks ≤
      k_sections * k_chunks := Nat.mul_le_mul_right k_chunks h2
  simp only [List.length_nil, Nat.zero_add] at h1
  omega

/-- C7 (witness): the bounds hold at a concrete populated store with
`kSections = 1`, `kChunks = 4`. -/
theorem hierarchical_search_bounded_witness :
    (SimpleVectorStore.hierarchical_search stReady okOracle "q" 1 4).sections.length ≤ 1 ∧
    ((SimpleVectorStore.hierarchical_search stReady okOracle "q" 1 4).sections.map
        (fun r => r.section_title)).Nodup ∧
    (SimpleVectorStore.hierarchical_search stReady okOracle "q" 1 4).chunks.length ≤ 1 * 4 :=
  hierarchical_search_bounded stReady okOracle "q" 1 4 (by decide) (by decide)

/-- C8: if the similarity backend has never been initialized (fresh store,
or store after `reset_embeddings` — in both cases `vector_store` is
`None`), `search` and `search_sections` return `[]` and
`hierarchical_search` returns `{sections: [], chunks: []}`, with no
error. -/
theorem empty_index_searches_empty (st : SimpleVectorStore) (oracle : SearchOracle)
    (query : String) (k k_sections k_chunks : Nat) (context : Option String)
    (h : st.vector_store = none) :
    st.search oracle query k context false = [] ∧
    st.search_sections oracle query k = [] ∧
    st.hierarchical_search oracle query k_sections k_chunks =
      { sections := [], chunks := [] } :=
  ⟨search_flat_of_vsNone st oracle query k context h,
   search_sections_of_vsNone st oracle query k h,
   hierarchical_search_of_vsNone st oracle query k_sections k_chunks h⟩

/-- C8 (witness): the fresh store has an uninitialized backend and all
three searches come back empty. -/
theorem empty_index_searches_empty_witness :
    SimpleVectorStore.init.search okOracle "q" 4 none false = [] ∧
    SimpleVectorStore.init.search_sections okOracle "q" 3 = [] ∧
    SimpleVectorStore.init.hierarchical_search okOracle "q" 2 4 =
      { sections := [], chunks := [] } :=
  empty_index_searches_empty SimpleVectorStore.init okOracle "q" 4 2 4 none rfl

/-- C10: `reset_embeddings` clears only the embedding binding, the backend
vector index, the section-title set and the section-to-positions mapping;
the documents and chunks lists are unchanged, so `get_document_summary`
still reports the pre-reset totals and per-document records even though
every search on the reset store returns empty. -/
theorem reset_embeddings_frame (st : SimpleVectorStore) (oracle : SearchOracle)
    (query : String) (k k_sections k_chunks : Nat) (context : Option String) :
    st.reset_embeddings.documents = st.documents ∧
    st.reset_embeddings.chunks = st.chunks ∧
    st.reset_embeddings.embeddings = none ∧
    st.reset_embeddings.vector_store = none ∧
    st.reset_embeddings.section_titles = [] ∧
    st.reset_embeddings.section_to_chunks = [] ∧
    st.reset_embeddings.get_document_summary = st.get_document_summary ∧
    st.reset_embeddings.search oracle query k context false = [] ∧
    st.reset_embeddings.search_sections oracle query k = [] ∧
    st.reset_embeddings.hierarchical_search oracle query k_sections k_chunks =
      { sections := [], chunks := [] } :=
  ⟨rfl, rfl, rfl, rfl, rfl, rfl, rfl,
   search_flat_of_vsNone _ oracle query k context rfl,
   search_sections_of_vsNone _ oracle query k rfl,
   hierarchical_search_of_vsNone _ oracle query k_sections k_chunks rfl⟩

end ContextFlow
